/- Verification of the per-chunk event-processing pipeline of the AGC
   CMS-Open-Data ttbar notebook: object selection, region classification,
   trijet-mass observable, systematic-variation fan-out and histogram fills.

   The embedding models the columnar awkward-array code over per-event
   lists of record structures with exact rational arithmetic.  Transverse
   momentum of a summed four-vector and the invariant mass are represented
   by their squares (the vector library takes square roots; squaring is a
   strictly monotone bijection on the nonnegative reals, so comparisons and
   argmax selections are unchanged and a mass value is faithfully
   represented by its square). -/

import Mathlib

namespace AGC

/-- Electron record with the fields read by object selection. -/
structure Electron where
  pt : ℚ
  eta : ℚ
  cutBased : Int
  sip3d : ℚ
deriving Repr, DecidableEq

/-- Muon record with the fields read by object selection. -/
structure Muon where
  pt : ℚ
  eta : ℚ
  tightId : Bool
  sip3d : ℚ
  pfRelIso04_all : ℚ
deriving Repr, DecidableEq

/-- Cartesian four-momentum, as materialized by the vector library when
four-vectors are added. -/
structure P4 where
  px : ℚ
  py : ℚ
  pz : ℚ
  energy : ℚ
deriving Repr, DecidableEq

/-- Componentwise four-vector sum (what the + on Lorentz vectors computes). -/
def P4.add (a b : P4) : P4 :=
  ⟨a.px + b.px, a.py + b.py, a.pz + b.pz, a.energy + b.energy⟩

/-- Square of the transverse momentum of a four-vector. -/
def P4.ptSq (a : P4) : ℚ := a.px ^ 2 + a.py ^ 2

/-- Square of the invariant mass of a four-vector. -/
def P4.massSq (a : P4) : ℚ := a.energy ^ 2 - a.px ^ 2 - a.py ^ 2 - a.pz ^ 2

/-- Jet record: scalar fields read by the pipeline plus the Cartesian
four-momentum the vector library derives for combination sums. -/
structure Jet where
  pt : ℚ
  eta : ℚ
  isTightLeptonVeto : Bool
  btagCSVV2 : ℚ
  p4 : P4
deriving Repr, DecidableEq

/-- B_TAG_THRESHOLD from the notebook. -/
def B_TAG_THRESHOLD : ℚ := 1 / 2

/-- electron_reqs of object_selection. -/
def electronPass (e : Electron) : Bool :=
  decide (30 < e.pt) && decide (|e.eta| < 21 / 10) && decide (e.cutBased = 4)
    && decide (e.sip3d < 4)

/-- muon_reqs of object_selection. -/
def muonPass (m : Muon) : Bool :=
  decide (30 < m.pt) && decide (|m.eta| < 21 / 10) && m.tightId
    && decide (m.sip3d < 4) && decide (m.pfRelIso04_all < 15 / 100)

/-- jet_reqs of object_selection. -/
def jetPass (j : Jet) : Bool :=
  decide (30 < j.pt) && decide (|j.eta| < 24 / 10) && j.isTightLeptonVeto

/-- object_selection: keep only objects passing the per-kind requirement
masks, per event. -/
def object_selection (elecs : List (List Electron)) (muons : List (List Muon))
    (jets : List (List Jet)) :
    List (List Electron) × List (List Muon) × List (List Jet) :=
  (elecs.map (fun es => es.filter electronPass),
   muons.map (fun ms => ms.filter muonPass),
   jets.map (fun js => js.filter jetPass))

/-- Number of b-tagged jets of an event: ak.sum(jets.btagCSVV2 > B_TAG_THRESHOLD). -/
def nBtag (js : List Jet) : Nat :=
  (js.filter (fun j => decide (B_TAG_THRESHOLD < j.btagCSVV2))).length

/-- PackedSelection: named boolean masks registered in order. -/
abbrev PackedSelection : Type := List (String × List Bool)

/-- PackedSelection.add: register one named mask (append in order). -/
def psAdd (s : PackedSelection) (name : String) (mask : List Bool) :
    PackedSelection :=
  s ++ [(name, mask)]

/-- Lookup of one named mask; none when the name was never registered. -/
def psLookup (s : PackedSelection) (name : String) : Option (List Bool) :=
  List.lookup name s

/-- PackedSelection.all: elementwise AND of the named masks; none when a
name was never registered (PackedSelection raises on unknown names). -/
def psAll (s : PackedSelection) (names : List String) : Option (List Bool) :=
  match names.mapM (fun n => psLookup s n) with
  | none => none
  | some [] => none
  | some (m :: ms) => some (ms.foldl (fun acc b => List.zipWith (fun x y => x && y) acc b) m)

/-- Atomic mask exactly_1l: electron count plus muon count equals one. -/
def exactly1lMask (elecs : List (List Electron)) (muons : List (List Muon)) :
    List Bool :=
  List.zipWith (fun es ms => decide (es.length + ms.length = 1)) elecs muons

/-- Atomic mask atleast_4j: at least four jets. -/
def atleast4jMask (jets : List (List Jet)) : List Bool :=
  jets.map (fun js => decide (4 ≤ js.length))

/-- Atomic mask exactly_1b: exactly one b-tagged jet. -/
def exactly1bMask (jets : List (List Jet)) : List Bool :=
  jets.map (fun js => decide (nBtag js = 1))

/-- Atomic mask atleast_2b: at least two b-tagged jets. -/
def atleast2bMask (jets : List (List Jet)) : List Bool :=
  jets.map (fun js => decide (2 ≤ nBtag js))

/-- region_selection: register the four atomic masks, then the composite
regions 4j1b and 4j2b as conjunctions of named atomics, in source order. -/
def region_selection (elecs : List (List Electron)) (muons : List (List Muon))
    (jets : List (List Jet)) : PackedSelection :=
  let s : PackedSelection := []
  let s := psAdd s "exactly_1l" (exactly1lMask elecs muons)
  let s := psAdd s "atleast_4j" (atleast4jMask jets)
  let s := psAdd s "exactly_1b" (exactly1bMask jets)
  let s := psAdd s "atleast_2b" (atleast2bMask jets)
  let s := psAdd s "4j1b" ((psAll s ["exactly_1l", "atleast_4j", "exactly_1b"]).getD [])
  let s := psAdd s "4j2b" ((psAll s ["exactly_1l", "atleast_4j", "atleast_2b"]).getD [])
  s

/-- All ordered pairs (i < j in index order), as ak.combinations with 2
enumerates them. -/
def pairsList : List α → List (α × α)
  | [] => []
  | x :: xs => xs.map (fun y => (x, y)) ++ pairsList xs

/-- All unordered 3-combinations in the i < j < k enumeration order of
ak.combinations(jets, 3). -/
def triples : List α → List (α × α × α)
  | [] => []
  | x :: xs => (pairsList xs).map (fun yz => (x, yz.1, yz.2)) ++ triples xs

/-- Four-momentum of a trijet candidate: j1 + j2 + j3. -/
def comboP4 (t : Jet × Jet × Jet) : P4 :=
  P4.add (P4.add t.1.p4 t.2.1.p4) t.2.2.p4

/-- Maximum b-tag score of a trijet candidate:
np.maximum(j1.btagCSVV2, np.maximum(j2.btagCSVV2, j3.btagCSVV2)). -/
def comboMaxBtag (t : Jet × Jet × Jet) : ℚ :=
  max t.1.btagCSVV2 (max t.2.1.btagCSVV2 t.2.2.btagCSVV2)

/-- Trijet candidates surviving the b-tag cut: max_btag > B_TAG_THRESHOLD. -/
def survivingCombos (js : List Jet) : List (Jet × Jet × Jet) :=
  (triples js).filter (fun t => decide (B_TAG_THRESHOLD < comboMaxBtag t))

/-- First element attaining the maximal key, as np/ak argmax returns the
first occurrence of the maximum; none on an empty list. -/
def argmaxFirst (f : α → ℚ) : List α → Option α
  | [] => none
  | x :: xs => some (xs.foldl (fun best y => if f best < f y then y else best) x)

/-- Per-event trijet-mass observable: among surviving candidates pick the
one of largest (squared) combined transverse momentum and return the
(squared) invariant mass of its four-momentum; none when no candidate
survives (awk argmax of an empty list is None and ak.flatten drops it). -/
def mRecoTopEvent (js : List Jet) : Option ℚ :=
  (argmaxFirst (fun t => P4.ptSq (comboP4 t)) (survivingCombos js)).map
    (fun t => P4.massSq (comboP4 t))

/-- calculate_m_reco_top: the flattened observable sequence; events whose
candidate list is empty contribute no entry. -/
def calculate_m_reco_top (jets : List (List Jet)) : List ℚ :=
  jets.filterMap mRecoTopEvent

/-- Per-unit metadata read from events.metadata. -/
structure Metadata where
  process : String
  variation : String
  xsec : ℚ
  nevts : ℚ
deriving Repr, DecidableEq

/-- An event batch: per-event object collections plus metadata. -/
structure Events where
  electron : List (List Electron)
  muon : List (List Muon)
  jet : List (List Jet)
  metadata : Metadata

/-- Integrated luminosity constant (lumi = 3378 /pb). -/
def lumi : ℚ := 3378

/-- Cross-section normalization weight: x_sec * lumi / nevts_total for
simulated processes, 1 for data. -/
def xsecWeight (process : String) (x_sec nevts_total : ℚ) : ℚ :=
  if process ≠ "data" then x_sec * lumi / nevts_total else 1

/-- jet_kinematic_systs of the notebook. -/
def jetKinematicSysts : List String := ["pt_scale_up", "pt_res_up"]

/-- event_systs of the notebook: btag_var_0..3, plus scale_var for wjets. -/
def eventSysts (process : String) : List String :=
  ["btag_var_0", "btag_var_1", "btag_var_2", "btag_var_3"]
    ++ (if process = "wjets" then ["scale_var"] else [])

/-- syst_variations: always nominal; expanded with the kinematic and the
event-weight variations only when the unit's own variation is nominal. -/
def systVariations (process variation : String) : List String :=
  if variation = "nominal" then
    ["nominal"] ++ jetKinematicSysts ++ eventSysts process
  else ["nominal"]

/-- The per-jet multiplier array of a kinematic shift: the constant 1.03
broadcast for pt_scale_up (the float literal is modelled as 103/100), and
the rand_gauss(events.Jet.pt) array, supplied as the ptResUp input, for
pt_res_up (rand_gauss lives in utils.systematics outside the notebook; its
output is modelled as an input array of the processing unit). -/
def shiftMultiplier (evts : Events) (ptResUp : List (List ℚ)) (systVar : String) :
    List (List ℚ) :=
  if systVar = "pt_scale_up" then evts.jet.map (fun js => js.map (fun _ => 103 / 100))
  else ptResUp

/-- jets["pt"] = jets.pt * multiplier: rebuild the jet collections with the
pt field multiplied elementwise; all other fields unchanged. -/
def applyShift (jets : List (List Jet)) (mult : List (List ℚ)) :
    List (List Jet) :=
  List.zipWith (fun js ms => List.zipWith (fun j m => { j with pt := j.pt * m }) js ms)
    jets mult

/-- The jet collections a variation pass starts from: the batch's nominal
jets, with the pt rescaled first when the variation is a kinematic shift.
Each pass re-reads events.Jet, so no shift is visible to another pass. -/
def jetsUsed (evts : Events) (ptResUp : List (List ℚ)) (systVar : String) :
    List (List Jet) :=
  if systVar ∈ jetKinematicSysts then
    applyShift evts.jet (shiftMultiplier evts ptResUp systVar)
  else evts.jet

/-- The filtered object collections of one variation pass. -/
def selectedUsed (evts : Events) (ptResUp : List (List ℚ)) (systVar : String) :
    List (List Electron) × List (List Muon) × List (List Jet) :=
  object_selection evts.electron evts.muon (jetsUsed evts ptResUp systVar)

/-- The region masks of one variation pass. -/
def selectionsUsed (evts : Events) (ptResUp : List (List ℚ)) (systVar : String) :
    PackedSelection :=
  region_selection (selectedUsed evts ptResUp systVar).1
    (selectedUsed evts ptResUp systVar).2.1 (selectedUsed evts ptResUp systVar).2.2

/-- One histogram fill call: hist_dict[region].fill(observable, process=...,
variation=..., weight=...). -/
structure Fill where
  region : String
  observable : List ℚ
  process : String
  variation : String
  weight : List ℚ
deriving Repr, DecidableEq

/-- The regions of hist_dict, in iteration order. -/
def regions : List String := ["4j1b", "4j2b"]

/-- Boolean-mask event indexing: jets[selection]. -/
def maskSelect (mask : List Bool) (xs : List α) : List α :=
  (mask.zip xs).filterMap (fun p => if p.1 then some p.2 else none)

/-- Column slice region_jets.pt[:, i].  In the fills both regions guarantee
at least four jets per selected event, so i ≤ 3 is always in range; the
out-of-range default 0 models the error the source would raise. -/
def ptColumn (region_jets : List (List Jet)) (i : Nat) : List ℚ :=
  region_jets.map (fun js => (js.map Jet.pt).getD i 0)

/-- The correction set: evaluate(family, direction, input) with family
"event_systematics" fixed; loaded from corrections.json outside the
notebook, so modelled as an abstract service function. -/
abbrev CSet : Type := String → String → List ℚ → List ℚ

/-- Python str.startswith over the characters of the strings. -/
def pyStartswith (s pre : String) : Bool := pre.data.isPrefixOf s.data

/-- The characters after the last occurrence of sep: what Python's
rsplit(sep, 1)[-1] returns (the whole text when sep never occurs). -/
def rsplitLast (sep : Char) (cs : List Char) : List Char :=
  cs.foldl (fun seg c => if c = sep then [] else seg ++ [c]) []

/-- Python int() on a decimal digit string. -/
def digitsToNat (cs : List Char) : Nat :=
  cs.foldl (fun n c => n * 10 + (c.toNat - 48)) 0

/-- i_jet = int(syst_var.rsplit("_", 1)[-1]): the text after the last
underscore parsed as a number. -/
def iJetOf (systVar : String) : Nat :=
  digitsToNat (rsplitLast '_' systVar.data)

/-- wgt_variation: the weight-service query of one direction; scale_var
uses family "scale_var" on the leading-jet pt column, btag_var_i uses
family "btag_var" on the i-th-jet pt column; any other name would leave
wgt_variation unbound in the source (modelled as the empty array). -/
def wgtVariation (cset : CSet) (systVar direction : String)
    (region_jets : List (List Jet)) : List ℚ :=
  if systVar = "scale_var" then cset "scale_var" direction (ptColumn region_jets 0)
  else if pyStartswith systVar "btag_var" then
    cset "btag_var" direction (ptColumn region_jets (iJetOf systVar))
  else []

/-- selection = selections.all(region): the region's stored mask. -/
def regionMaskOf (selections : PackedSelection) (region : String) : List Bool :=
  (psAll selections [region]).getD []

/-- region_jets = jets[selection]. -/
def regionJetsOf (selections : PackedSelection) (jets : List (List Jet))
    (region : String) : List (List Jet) :=
  maskSelect (regionMaskOf selections region) jets

/-- region_weights = ones_like(num(region_jets)) * xsec_weight. -/
def regionWeightsOf (xsec_weight : ℚ) (region_jets : List (List Jet)) : List ℚ :=
  region_jets.map (fun _ => xsec_weight)

/-- The per-region observable: HT (scalar sum of jet pt) for 4j1b, the
trijet mass for 4j2b. -/
def observableOf (region : String) (region_jets : List (List Jet)) : List ℚ :=
  if region = "4j1b" then region_jets.map (fun js => (js.map Jet.pt).sum)
  else if region = "4j2b" then calculate_m_reco_top region_jets
  else []

/-- The fill calls one variation pass makes for one region: two fills
(one per direction) for an event-weight variation, one fill otherwise,
named by the unit's own variation when that is not nominal. -/
def fillsForRegion (cset : CSet) (xsec_weight : ℚ) (processName baselineVar systVar : String)
    (selections : PackedSelection) (jets : List (List Jet)) (region : String) :
    List Fill :=
  let region_jets := regionJetsOf selections jets region
  let region_weights := regionWeightsOf xsec_weight region_jets
  let observable := observableOf region region_jets
  if systVar ∈ eventSysts processName then
    ["up", "down"].map (fun direction =>
      { region := region, observable := observable, process := processName,
        variation := systVar ++ "_" ++ direction,
        weight := List.zipWith (fun a b => a * b) region_weights
          (wgtVariation cset systVar direction region_jets) })
  else
    [{ region := region, observable := observable, process := processName,
       variation := if baselineVar ≠ "nominal" then baselineVar else systVar,
       weight := region_weights }]

/-- All fill calls of one variation pass: object selection and region
classification on that pass's jets, then the per-region fills. -/
def fillsForVar (cset : CSet) (evts : Events) (ptResUp : List (List ℚ))
    (systVar : String) : List Fill :=
  let sel := selectedUsed evts ptResUp systVar
  let selections := region_selection sel.1 sel.2.1 sel.2.2
  regions.flatMap
    (fillsForRegion cset
      (xsecWeight evts.metadata.process evts.metadata.xsec evts.metadata.nevts)
      evts.metadata.process evts.metadata.variation systVar selections sel.2.2)

/-- create_histograms.process: the ordered list of fill calls of one
processing unit (chunk), iterating the candidate variations. -/
def create_histograms_process (cset : CSet) (evts : Events)
    (ptResUp : List (List ℚ)) : List Fill :=
  (systVariations evts.metadata.process evts.metadata.variation).flatMap
    (fillsForVar cset evts ptResUp)

/-- Number of fills a unit commits into one region's histogram. -/
def countRegionFills (fills : List Fill) (r : String) : Nat :=
  (fills.filter (fun f => decide (f.region = r))).length

/-- Sample electron passing object selection, for concrete scenarios. -/
def sampleElectron : Electron := ⟨35, 0, 4, 0⟩

/-- Sample jet of given pt and b-tag score, passing object selection. -/
def sampleJet (pt btag : ℚ) : Jet := ⟨pt, 0, true, btag, ⟨pt, 0, 0, pt + 1⟩⟩

lemma psAll_single (s : PackedSelection) (n : String) : psAll s [n] = psLookup s n := by
  cases h : psLookup s n <;> simp [psAll, List.mapM.loop, h]

lemma lookup_4j1b (e : List (List Electron)) (m : List (List Muon)) (j : List (List Jet)) :
    psLookup (region_selection e m j) "4j1b" =
      some (List.zipWith (fun x y => x && y)
        (List.zipWith (fun x y => x && y) (exactly1lMask e m) (atleast4jMask j))
        (exactly1bMask j)) := rfl

lemma lookup_4j2b (e : List (List Electron)) (m : List (List Muon)) (j : List (List Jet)) :
    psLookup (region_selection e m j) "4j2b" =
      some (List.zipWith (fun x y => x && y)
        (List.zipWith (fun x y => x && y) (exactly1lMask e m) (atleast4jMask j))
        (atleast2bMask j)) := rfl

/-- C6: the cross-section-normalization weight is cross_section × 3378 ÷
total_generated_event_count for every simulated process, exactly 1 for
real data, and equals 2.7024 = 27024/10000 at cross_section 800 and one
million generated events. -/
theorem xsecWeight_formula :
    (∀ p x n, p ≠ "data" → xsecWeight p x n = x * 3378 / n) ∧
    (∀ x n, xsecWeight "data" x n = 1) ∧
    xsecWeight "ttbar" 800 1000000 = 27024 / 10000 :=
  ⟨fun p x n h => by simp [xsecWeight, lumi, h],
   fun x n => by simp [xsecWeight],
   by
     have h : ("ttbar" : String) ≠ "data" := by decide
     rw [xsecWeight, if_pos h, lumi]
     norm_num⟩

/-- Witness for C6 at a concrete simulated process. -/
theorem xsecWeight_formula_witness :
    xsecWeight "wjets" 800 1000000 = 800 * 3378 / 1000000 :=
  xsecWeight_formula.1 "wjets" 800 1000000 (by decide)

/-- C3: the 4j1b region mask is the conjunction of the exactly-one-lepton,
at-least-four-jets and exactly-one-b-tag atomic masks, 4j2b the conjunction
with at-least-two-b-tags instead; on an event with one selected lepton and
four selected jets of b-tag scores [0.9, 0.9, 0.1, 0.1] the 4j2b mask is
true and the 4j1b mask is false. -/
theorem region_masks_are_conjunctions :
    (∀ e m j, psLookup (region_selection e m j) "4j1b" =
      some (List.zipWith (fun x y => x && y)
        (List.zipWith (fun x y => x && y) (exactly1lMask e m) (atleast4jMask j))
        (exactly1bMask j))) ∧
    (∀ e m j, psLookup (region_selection e m j) "4j2b" =
      some (List.zipWith (fun x y => x && y)
        (List.zipWith (fun x y => x && y) (exactly1lMask e m) (atleast4jMask j))
        (atleast2bMask j))) ∧
    psAll (region_selection [[sampleElectron]] [[]]
      [[sampleJet 40 (9/10), sampleJet 40 (9/10), sampleJet 40 (1/10), sampleJet 40 (1/10)]])
      ["4j2b"] = some [true] ∧
    psAll (region_selection [[sampleElectron]] [[]]
      [[sampleJet 40 (9/10), sampleJet 40 (9/10), sampleJet 40 (1/10), sampleJet 40 (1/10)]])
      ["4j1b"] = some [false] :=
  ⟨lookup_4j1b, lookup_4j2b,
   by
     rw [psAll_single, lookup_4j2b]
     norm_num [exactly1lMask, atleast4jMask, atleast2bMask, nBtag, sampleJet,
       sampleElectron, B_TAG_THRESHOLD, List.filter],
   by
     rw [psAll_single, lookup_4j1b]
     norm_num [exactly1lMask, atleast4jMask, exactly1bMask, nBtag, sampleJet,
       sampleElectron, B_TAG_THRESHOLD, List.filter]⟩

/-- C8: region-mask construction is deterministic and idempotent — the
same filtered collections give the same PackedSelection, and the stored
composite masks agree with re-evaluating their conjunctions of named
atomics on the final selection object. -/
theorem region_selection_deterministic :
    ∀ e m j, region_selection e m j = region_selection e m j ∧
      psLookup (region_selection e m j) "4j1b" =
        psAll (region_selection e m j) ["exactly_1l", "atleast_4j", "exactly_1b"] ∧
      psLookup (region_selection e m j) "4j2b" =
        psAll (region_selection e m j) ["exactly_1l", "atleast_4j", "atleast_2b"] :=
  fun _ _ _ => ⟨rfl, rfl, rfl⟩

lemma zipAnd_maps_exclusive (p q : List Jet → Bool)
    (hpq : ∀ js, p js = true → q js = false) :
    ∀ (X : List Bool) (j : List (List Jet)),
      (List.zipWith (fun a b => a && b)
        (List.zipWith (fun a b => a && b) X (j.map p))
        (List.zipWith (fun a b => a && b) X (j.map q))).all (fun b => !b) = true := by
  intro X
  induction X with
  | nil => intro j; simp
  | cons x X ih =>
    intro j
    cases j with
    | nil => simp
    | cons js j1 =>
      cases hp : p js with
      | false => simp [hp, ih j1]
      | true => simp [hp, hpq js hp, ih j1]

/-- C9: the 4j1b and 4j2b region masks are never both true for an event;
their pointwise conjunction is everywhere false, since exactly one
b-tagged jet and at least two b-tagged jets are mutually exclusive. -/
theorem regions_mutually_exclusive :
    ∀ e m j,
      (List.zipWith (fun a b => a && b)
        (regionMaskOf (region_selection e m j) "4j1b")
        (regionMaskOf (region_selection e m j) "4j2b")).all (fun b => !b) = true := by
  intro e m j
  rw [regionMaskOf, regionMaskOf, psAll_single, psAll_single, lookup_4j1b, lookup_4j2b]
  exact zipAnd_maps_exclusive (fun js => decide (nBtag js = 1))
    (fun js => decide (2 ≤ nBtag js))
    (fun js h => by simp at h ⊢; omega)
    (List.zipWith (fun a b => a && b) (exactly1lMask e m) (atleast4jMask j)) j

lemma fillsForRegion_region_eq (cset : CSet) (xw : ℚ) (p bv sv : String)
    (sels : PackedSelection) (jets : List (List Jet)) (r : String) :
    ∀ f ∈ fillsForRegion cset xw p bv sv sels jets r, f.region = r := by
  intro f hf
  rw [fillsForRegion] at hf
  split at hf
  · simp at hf
    rcases hf with rfl | rfl <;> rfl
  · simp at hf
    rw [hf]

lemma length_fillsForRegion (cset : CSet) (xw : ℚ) (p bv sv : String)
    (sels : PackedSelection) (jets : List (List Jet)) (r : String) :
    (fillsForRegion cset xw p bv sv sels jets r).length =
      if sv ∈ eventSysts p then 2 else 1 := by
  rw [fillsForRegion]
  split <;> simp [*]

lemma countRegionFills_append (l1 l2 : List Fill) (r : String) :
    countRegionFills (l1 ++ l2) r = countRegionFills l1 r + countRegionFills l2 r := by
  simp [countRegionFills, List.filter_append]

lemma countRegionFills_fillsForRegion (cset : CSet) (xw : ℚ) (p bv sv : String)
    (sels : PackedSelection) (jets : List (List Jet)) (r1 r : String) :
    countRegionFills (fillsForRegion cset xw p bv sv sels jets r1) r =
      if r1 = r then (if sv ∈ eventSysts p then 2 else 1) else 0 := by
  by_cases h : r1 = r
  · subst h
    rw [if_pos rfl, countRegionFills,
      List.filter_eq_self.mpr (fun f hf => by
        rw [fillsForRegion_region_eq cset xw p bv sv sels jets r1 f hf]; simp),
      length_fillsForRegion]
  · rw [if_neg h, countRegionFills,
      List.filter_eq_nil_iff.mpr (fun f hf => by
        rw [fillsForRegion_region_eq cset xw p bv sv sels jets r1 f hf]
        simp [h]),
      List.length_nil]

lemma countRegionFills_flatMap (l : List String) (g : String → List Fill) (r : String) :
    countRegionFills (l.flatMap g) r = (l.map (fun x => countRegionFills (g x) r)).sum := by
  induction l with
  | nil => simp [countRegionFills]
  | cons x l ih => simp [List.flatMap_cons, countRegionFills_append, ih]

lemma countRegionFills_fillsForVar (cset : CSet) (evts : Events)
    (ptResUp : List (List ℚ)) (r : String) (hr : r ∈ regions) (sv : String) :
    countRegionFills (fillsForVar cset evts ptResUp sv) r =
      if sv ∈ eventSysts evts.metadata.process then 2 else 1 := by
  rw [fillsForVar, countRegionFills_flatMap]
  simp only [regions, List.map_cons, List.map_nil, countRegionFills_fillsForRegion]
  have h12 : ("4j1b" : String) ≠ "4j2b" := by decide
  rcases (by simpa [regions] using hr : r = "4j1b" ∨ r = "4j2b") with h | h <;> subst h
  · rw [if_pos rfl, if_neg h12.symm]; simp
  · rw [if_neg h12, if_pos rfl]; simp

lemma nominal_not_eventSyst : ∀ p, "nominal" ∉ eventSysts p := by
  intro p
  rw [eventSysts]
  split <;> decide

/-- C1: the candidate variation list always contains nominal; for a
nominal baseline it is nominal plus the two kinematic shifts plus
btag_var_0..3 (plus scale_var exactly for wjets), giving 11 fills per
region per chunk for a nominal ttbar unit; for a non-nominal baseline it
is exactly [nominal], giving one fill per region. -/
theorem variation_fanout_fill_counts :
    (∀ p v, "nominal" ∈ systVariations p v) ∧
    systVariations "ttbar" "nominal" =
      ["nominal", "pt_scale_up", "pt_res_up",
       "btag_var_0", "btag_var_1", "btag_var_2", "btag_var_3"] ∧
    systVariations "wjets" "nominal" =
      ["nominal", "pt_scale_up", "pt_res_up",
       "btag_var_0", "btag_var_1", "btag_var_2", "btag_var_3", "scale_var"] ∧
    (∀ p v, v ≠ "nominal" → systVariations p v = ["nominal"]) ∧
    (∀ (cset : CSet) evts ptResUp r, r ∈ regions →
      evts.metadata.process = "ttbar" → evts.metadata.variation = "nominal" →
      countRegionFills (create_histograms_process cset evts ptResUp) r = 11) ∧
    (∀ (cset : CSet) evts ptResUp r, r ∈ regions →
      evts.metadata.variation ≠ "nominal" →
      countRegionFills (create_histograms_process cset evts ptResUp) r = 1) := by
  refine ⟨?_, by decide, by decide, ?_, ?_, ?_⟩
  · intro p v
    rw [systVariations]
    split <;> simp
  · intro p v h
    rw [systVariations, if_neg h]
  · intro cset evts ptResUp r hr hp hv
    have hcnt := countRegionFills_fillsForVar cset evts ptResUp r hr
    rw [create_histograms_process, hp, hv,
      show systVariations "ttbar" "nominal" =
        ["nominal", "pt_scale_up", "pt_res_up",
         "btag_var_0", "btag_var_1", "btag_var_2", "btag_var_3"] from by decide,
      countRegionFills_flatMap]
    simp only [List.map_cons, List.map_nil, hcnt, hp]
    decide
  · intro cset evts ptResUp r hr hv
    have hcnt := countRegionFills_fillsForVar cset evts ptResUp r hr
    rw [create_histograms_process, systVariations, if_neg hv, countRegionFills_flatMap]
    simp only [List.map_cons, List.map_nil, hcnt]
    rw [if_neg (nominal_not_eventSyst evts.metadata.process)]
    decide

/-- Unit correction service for concrete scenarios. -/
def csetUnit : CSet := fun _ _ xs => xs.map (fun _ => 1)

/-- A one-event nominal ttbar batch for concrete scenarios. -/
def sampleEvents : Events :=
  { electron := [[sampleElectron]], muon := [[]],
    jet := [[sampleJet 40 (9/10), sampleJet 40 (9/10), sampleJet 40 (1/10), sampleJet 40 (1/10)]],
    metadata := ⟨"ttbar", "nominal", 800, 1000000⟩ }

/-- The same batch declared as a pt_scale_up unit. -/
def sampleEventsShifted : Events :=
  { electron := [[sampleElectron]], muon := [[]],
    jet := [[sampleJet 40 (9/10), sampleJet 40 (9/10), sampleJet 40 (1/10), sampleJet 40 (1/10)]],
    metadata := ⟨"ttbar", "pt_scale_up", 800, 1000000⟩ }

/-- Resolution-shift multipliers for the sample batch. -/
def samplePtResUp : List (List ℚ) := [[1, 1, 1, 1]]

/-- Witness for C1 on the sample batches. -/
theorem variation_fanout_fill_counts_witness :
    countRegionFills (create_histograms_process csetUnit sampleEvents samplePtResUp) "4j1b" = 11 ∧
    countRegionFills (create_histograms_process csetUnit sampleEventsShifted samplePtResUp) "4j2b" = 1 :=
  ⟨variation_fanout_fill_counts.2.2.2.2.1 csetUnit sampleEvents samplePtResUp "4j1b"
      (by decide) rfl rfl,
   variation_fanout_fill_counts.2.2.2.2.2 csetUnit sampleEventsShifted samplePtResUp "4j2b"
      (by decide) (by decide)⟩

/-- C4: a kinematic-shift pass multiplies the nominal jet pt by that
shift's multiplier array, for that pass only: applyShift rescales pt
elementwise and leaves every other field unchanged, every non-kinematic
pass reads the unshifted nominal jets again, and the driver hands the
same unmutated batch to every pass of the unit. -/
theorem kinematic_shift_no_mutation :
    (∀ evts ptResUp,
      jetsUsed evts ptResUp "pt_scale_up" =
        applyShift evts.jet (shiftMultiplier evts ptResUp "pt_scale_up") ∧
      jetsUsed evts ptResUp "pt_res_up" = applyShift evts.jet ptResUp) ∧
    (∀ evts ptResUp sv, sv ∉ jetKinematicSysts → jetsUsed evts ptResUp sv = evts.jet) ∧
    (∀ (jets : List (List Jet)) (mult : List (List ℚ)) (i k : Nat)
      (js : List Jet) (ms : List ℚ) (j0 : Jet) (m0 : ℚ),
      jets[i]? = some js → mult[i]? = some ms → js[k]? = some j0 → ms[k]? = some m0 →
      ((applyShift jets mult)[i]?.bind (fun row => row[k]?)) =
        some { j0 with pt := j0.pt * m0 }) ∧
    (∀ (cset : CSet) evts ptResUp,
      create_histograms_process cset evts ptResUp =
        (systVariations evts.metadata.process evts.metadata.variation).flatMap
          (fun sv => fillsForVar cset evts ptResUp sv)) := by
  refine ⟨?_, ?_, ?_, fun _ _ _ => rfl⟩
  · intro evts ptResUp
    constructor
    · rw [jetsUsed, if_pos (by decide)]
    · rw [jetsUsed, if_pos (by decide), shiftMultiplier, if_neg (by decide)]
  · intro evts ptResUp sv h
    rw [jetsUsed, if_neg h]
  · intro jets mult i k js ms j0 m0 h1 h2 h3 h4
    simp [applyShift, List.getElem?_zipWith, h1, h2, h3, h4]

/-- Witness for C4 on concrete jets and multipliers. -/
theorem kinematic_shift_no_mutation_witness :
    jetsUsed sampleEvents samplePtResUp "nominal" = sampleEvents.jet ∧
    ((applyShift [[sampleJet 40 1]] [[2]])[0]?.bind (fun row => row[0]?)) =
      some { sampleJet 40 1 with pt := (sampleJet 40 1).pt * 2 } :=
  ⟨kinematic_shift_no_mutation.2.1 sampleEvents samplePtResUp "nominal" (by decide),
   kinematic_shift_no_mutation.2.2.1 [[sampleJet 40 1]] [[2]] 0 0 [sampleJet 40 1] [2]
     (sampleJet 40 1) 2 rfl rfl rfl rfl⟩

/-- C7: every event-weight variation name is outside the kinematic-shift
set, and every non-kinematic pass of a unit (nominal and all weight-type
variations) produces exactly the filtered object collections and region
masks of the nominal pass; only a kinematic shift can change them. -/
theorem nonkinematic_selection_reuse :
    (∀ p sv, sv ∈ eventSysts p → sv ∉ jetKinematicSysts) ∧
    (∀ evts ptResUp sv, sv ∉ jetKinematicSysts →
      selectedUsed evts ptResUp sv = selectedUsed evts ptResUp "nominal" ∧
      selectionsUsed evts ptResUp sv = selectionsUsed evts ptResUp "nominal") := by
  constructor
  · intro p sv h
    have h5 : sv = "btag_var_0" ∨ sv = "btag_var_1" ∨ sv = "btag_var_2" ∨
        sv = "btag_var_3" ∨ sv = "scale_var" := by
      by_cases hp : p = "wjets" <;> simp [eventSysts, hp] at h <;> tauto
    rcases h5 with h5 | h5 | h5 | h5 | h5 <;> subst h5 <;> decide
  · intro evts ptResUp sv h
    have h0 : jetsUsed evts ptResUp sv = evts.jet := by rw [jetsUsed, if_neg h]
    have hn : jetsUsed evts ptResUp "nominal" = evts.jet := by
      rw [jetsUsed, if_neg (by decide)]
    have hsel : selectedUsed evts ptResUp sv = selectedUsed evts ptResUp "nominal" := by
      rw [selectedUsed, selectedUsed, h0, hn]
    exact ⟨hsel, by rw [selectionsUsed, selectionsUsed, hsel]⟩

/-- Witness for C7 with the btag_var_0 weight variation. -/
theorem nonkinematic_selection_reuse_witness :
    ("scale_var" ∉ jetKinematicSysts) ∧
    selectedUsed sampleEvents samplePtResUp "btag_var_0" =
      selectedUsed sampleEvents samplePtResUp "nominal" :=
  ⟨nonkinematic_selection_reuse.1 "wjets" "scale_var" (by decide),
   (nonkinematic_selection_reuse.2 sampleEvents samplePtResUp "btag_var_0" (by decide)).1⟩

/-- C5: an event-weight variation fills each region exactly twice, once
per direction, under the names sv_up and sv_down, with weight the
cross-section weight times the service's correction for that direction;
the service input is the leading-jet pt column for scale_var and the
i-th-jet pt column for btag_var_i; kinematic and nominal candidates fill
once under their own name, or the unit's baseline name when that is not
nominal, with the cross-section weights alone. -/
theorem weight_variation_fill_structure :
    (∀ (cset : CSet) xw p bv sv sels jets r, sv ∈ eventSysts p →
      fillsForRegion cset xw p bv sv sels jets r =
        ["up", "down"].map (fun direction =>
          { region := r, observable := observableOf r (regionJetsOf sels jets r),
            process := p, variation := sv ++ "_" ++ direction,
            weight := List.zipWith (fun a b => a * b)
              (regionWeightsOf xw (regionJetsOf sels jets r))
              (wgtVariation cset sv direction (regionJetsOf sels jets r)) })) ∧
    (∀ (cset : CSet) xw p bv sv sels jets r, sv ∉ eventSysts p →
      fillsForRegion cset xw p bv sv sels jets r =
        [{ region := r, observable := observableOf r (regionJetsOf sels jets r),
           process := p, variation := if bv ≠ "nominal" then bv else sv,
           weight := regionWeightsOf xw (regionJetsOf sels jets r) }]) ∧
    (∀ (cset : CSet) d rj, wgtVariation cset "scale_var" d rj =
      cset "scale_var" d (ptColumn rj 0)) ∧
    (∀ (cset : CSet) d rj, wgtVariation cset "btag_var_0" d rj =
      cset "btag_var" d (ptColumn rj 0)) ∧
    (∀ (cset : CSet) d rj, wgtVariation cset "btag_var_1" d rj =
      cset "btag_var" d (ptColumn rj 1)) ∧
    (∀ (cset : CSet) d rj, wgtVariation cset "btag_var_2" d rj =
      cset "btag_var" d (ptColumn rj 2)) ∧
    (∀ (cset : CSet) d rj, wgtVariation cset "btag_var_3" d rj =
      cset "btag_var" d (ptColumn rj 3)) ∧
    (∀ (xw : ℚ) rj, regionWeightsOf xw rj = rj.map (fun _ => xw)) := by
  refine ⟨?_, ?_, ?_, ?_, ?_, ?_, ?_, fun _ _ => rfl⟩
  · intro cset xw p bv sv sels jets r h
    simp only [fillsForRegion]
    rw [if_pos h]
  · intro cset xw p bv sv sels jets r h
    simp only [fillsForRegion]
    rw [if_neg h]
  · intro cset d rj
    rw [wgtVariation, if_pos rfl]
  · intro cset d rj
    rw [wgtVariation, if_neg (by decide), if_pos (by decide),
      show iJetOf "btag_var_0" = 0 from by decide]
  · intro cset d rj
    rw [wgtVariation, if_neg (by decide), if_pos (by decide),
      show iJetOf "btag_var_1" = 1 from by decide]
  · intro cset d rj
    rw [wgtVariation, if_neg (by decide), if_pos (by decide),
      show iJetOf "btag_var_2" = 2 from by decide]
  · intro cset d rj
    rw [wgtVariation, if_neg (by decide), if_pos (by decide),
      show iJetOf "btag_var_3" = 3 from by decide]

/-- Sample PackedSelection built from the sample batch. -/
def sampleSelections : PackedSelection :=
  region_selection [[sampleElectron]] [[]] sampleEvents.jet

/-- Witness for C5: the two-direction fills of scale_var on a wjets unit
and the single nominal fill on a ttbar unit, at concrete inputs. -/
theorem weight_variation_fill_structure_witness :
    fillsForRegion csetUnit 1 "wjets" "nominal" "scale_var" sampleSelections
        sampleEvents.jet "4j2b" =
      ["up", "down"].map (fun direction =>
        { region := "4j2b",
          observable := observableOf "4j2b" (regionJetsOf sampleSelections sampleEvents.jet "4j2b"),
          process := "wjets", variation := "scale_var" ++ "_" ++ direction,
          weight := List.zipWith (fun a b => a * b)
            (regionWeightsOf 1 (regionJetsOf sampleSelections sampleEvents.jet "4j2b"))
            (wgtVariation csetUnit "scale_var" direction
              (regionJetsOf sampleSelections sampleEvents.jet "4j2b")) }) ∧
    fillsForRegion csetUnit 1 "ttbar" "nominal" "nominal" sampleSelections
        sampleEvents.jet "4j1b" =
      [{ region := "4j1b",
         observable := observableOf "4j1b" (regionJetsOf sampleSelections sampleEvents.jet "4j1b"),
         process := "ttbar", variation := if ("nominal" : String) ≠ "nominal" then "nominal" else "nominal",
         weight := regionWeightsOf 1 (regionJetsOf sampleSelections sampleEvents.jet "4j1b") }] :=
  ⟨weight_variation_fill_structure.1 csetUnit 1 "wjets" "nominal" "scale_var"
      sampleSelections sampleEvents.jet "4j2b" (by decide),
   weight_variation_fill_structure.2.1 csetUnit 1 "ttbar" "nominal" "nominal"
      sampleSelections sampleEvents.jet "4j1b" (nominal_not_eventSyst "ttbar")⟩

lemma mem_pairsList_sublist {xs : List α} {p : α × α} (h : p ∈ pairsList xs) :
    [p.1, p.2].Sublist xs := by
  induction xs with
  | nil => cases h
  | cons y ys ih =>
    rw [pairsList] at h
    rcases List.mem_append.mp h with h | h
    · obtain ⟨z, hz, hp⟩ := List.mem_map.mp h
      rw [← hp]
      exact List.Sublist.cons₂ y (List.singleton_sublist.mpr hz)
    · exact List.Sublist.cons y (ih h)

lemma pairsList_complete {xs : List α} {a b : α} (h : [a, b].Sublist xs) :
    (a, b) ∈ pairsList xs := by
  induction xs with
  | nil => cases h
  | cons y ys ih =>
    rw [pairsList]
    cases h with
    | cons _ h1 => exact List.mem_append_right _ (ih h1)
    | cons₂ _ h1 =>
      exact List.mem_append_left _
        (List.mem_map.mpr ⟨b, List.singleton_sublist.mp h1, rfl⟩)

lemma length_pairsList (xs : List α) : (pairsList xs).length = xs.length.choose 2 := by
  induction xs with
  | nil => rfl
  | cons y ys ih =>
    rw [pairsList, List.length_append, List.length_map, ih, List.length_cons,
      Nat.choose_succ_succ ys.length 1, Nat.choose_one_right]

lemma mem_triples_sublist {xs : List α} {t : α × α × α} (h : t ∈ triples xs) :
    [t.1, t.2.1, t.2.2].Sublist xs := by
  induction xs with
  | nil => cases h
  | cons y ys ih =>
    rw [triples] at h
    rcases List.mem_append.mp h with h | h
    · obtain ⟨yz, hyz, hp⟩ := List.mem_map.mp h
      rw [← hp]
      exact List.Sublist.cons₂ y (mem_pairsList_sublist hyz)
    · exact List.Sublist.cons y (ih h)

lemma triples_complete {xs : List α} {a b c : α} (h : [a, b, c].Sublist xs) :
    (a, b, c) ∈ triples xs := by
  induction xs with
  | nil => cases h
  | cons y ys ih =>
    rw [triples]
    cases h with
    | cons _ h1 => exact List.mem_append_right _ (ih h1)
    | cons₂ _ h1 =>
      exact List.mem_append_left _
        (List.mem_map.mpr ⟨(b, c), pairsList_complete h1, rfl⟩)

lemma length_triples (xs : List α) : (triples xs).length = xs.length.choose 3 := by
  induction xs with
  | nil => rfl
  | cons y ys ih =>
    rw [triples, List.length_append, List.length_map, length_pairsList, ih,
      List.length_cons, Nat.choose_succ_succ ys.length 2]

lemma foldl_max_spec (f : α → ℚ) :
    ∀ (xs : List α) (x : α),
      xs.foldl (fun best y => if f best < f y then y else best) x ∈ x :: xs ∧
      f x ≤ f (xs.foldl (fun best y => if f best < f y then y else best) x) ∧
      ∀ b ∈ xs, f b ≤ f (xs.foldl (fun best y => if f best < f y then y else best) x) := by
  intro xs
  induction xs with
  | nil =>
    intro x
    refine ⟨List.mem_cons_self x [], le_refl _, ?_⟩
    intro b hb
    exact absurd hb (List.not_mem_nil b)
  | cons y ys ih =>
    intro x
    rw [List.foldl_cons]
    obtain ⟨h1, h2, h3⟩ := ih (if f x < f y then y else x)
    refine ⟨?_, ?_, ?_⟩
    · rcases List.mem_cons.mp h1 with h | h
      · rw [h]
        by_cases hxy : f x < f y
        · rw [if_pos hxy]
          exact List.mem_cons_of_mem x (List.mem_cons_self y ys)
        · rw [if_neg hxy]
          exact List.mem_cons_self x (y :: ys)
      · exact List.mem_cons_of_mem x (List.mem_cons_of_mem y h)
    · refine le_trans ?_ h2
      by_cases hxy : f x < f y
      · rw [if_pos hxy]
        exact le_of_lt hxy
      · rw [if_neg hxy]
    · intro b hb
      rcases List.mem_cons.mp hb with hb | hb
      · subst hb
        refine le_trans ?_ h2
        by_cases hxy : f x < f b
        · rw [if_pos hxy]
        · rw [if_neg hxy]
          exact le_of_not_lt hxy
      · exact h3 b hb

lemma argmaxFirst_spec {f : α → ℚ} {xs : List α} {a : α}
    (h : argmaxFirst f xs = some a) : a ∈ xs ∧ ∀ b ∈ xs, f b ≤ f a := by
  cases xs with
  | nil => cases h
  | cons x t =>
    rw [argmaxFirst] at h
    obtain ⟨h1, h2, h3⟩ := foldl_max_spec f t x
    injection h with h
    subst h
    refine ⟨h1, ?_⟩
    intro b hb
    rcases List.mem_cons.mp hb with hb | hb
    · subst hb
      exact h2
    · exact h3 b hb

lemma argmaxFirst_eq_none_iff (f : α → ℚ) (xs : List α) :
    argmaxFirst f xs = none ↔ xs = [] := by
  cases xs <;> simp [argmaxFirst]

lemma mRecoTopEvent_eq_none_iff (js : List Jet) :
    mRecoTopEvent js = none ↔ survivingCombos js = [] := by
  rw [mRecoTopEvent]
  rw [Option.map_eq_none']
  exact argmaxFirst_eq_none_iff _ _

lemma mRecoTopEvent_short (js : List Jet) (h : js.length < 3) :
    mRecoTopEvent js = none := by
  rw [mRecoTopEvent_eq_none_iff, survivingCombos,
    show triples js = [] from List.length_eq_zero.mp
      (by rw [length_triples]; exact Nat.choose_eq_zero_of_lt h)]
  rfl

lemma calc_length_eq (jets : List (List Jet)) :
    (calculate_m_reco_top jets).length =
      (jets.filter (fun js => !(survivingCombos js).isEmpty)).length := by
  induction jets with
  | nil => rfl
  | cons js rest ih =>
    rw [calculate_m_reco_top, List.filterMap_cons] at *
    cases h : mRecoTopEvent js with
    | none =>
      have he : survivingCombos js = [] := (mRecoTopEvent_eq_none_iff js).mp h
      simp [h, he, ih]
    | some mval =>
      have hne : (survivingCombos js).isEmpty = false := by
        cases hb : (survivingCombos js).isEmpty
        · rfl
        · rw [(mRecoTopEvent_eq_none_iff js).mpr (List.isEmpty_iff.mp hb)] at h
          cases h
      simp [h, hne, ih]

/-- C2: the 4j2b observable enumerates exactly the unordered
3-combinations of the event's jets, keeps those whose maximal b-tag score
exceeds the threshold, returns the squared invariant mass of a surviving
combination of maximal squared combined transverse momentum, yields
nothing for an event with no surviving combination (in particular with
fewer than 3 jets), and the flattened sequence has one entry exactly per
event with a surviving combination — no sentinel entries. -/
theorem trijet_mass_calculator_spec :
    (∀ (js : List Jet) (t : Jet × Jet × Jet),
      t ∈ triples js ↔ [t.1, t.2.1, t.2.2].Sublist js) ∧
    (∀ js : List Jet, (triples js).length = js.length.choose 3) ∧
    (∀ js : List Jet, mRecoTopEvent js = none ↔ survivingCombos js = []) ∧
    (∀ js : List Jet, js.length < 3 → mRecoTopEvent js = none) ∧
    (∀ (js : List Jet) (mval : ℚ), mRecoTopEvent js = some mval →
      ∃ t, t ∈ survivingCombos js ∧ mval = (comboP4 t).massSq ∧
        ∀ u ∈ survivingCombos js, (comboP4 u).ptSq ≤ (comboP4 t).ptSq) ∧
    (∀ jets : List (List Jet), (calculate_m_reco_top jets).length =
      (jets.filter (fun js => !(survivingCombos js).isEmpty)).length) := by
  refine ⟨?_, length_triples, mRecoTopEvent_eq_none_iff, mRecoTopEvent_short, ?_,
    calc_length_eq⟩
  · intro js t
    exact ⟨mem_triples_sublist, fun h => triples_complete h⟩
  · intro js mval h
    rw [mRecoTopEvent] at h
    cases ha : argmaxFirst (fun t => P4.ptSq (comboP4 t)) (survivingCombos js) with
    | none => rw [ha] at h; cases h
    | some t =>
      rw [ha] at h
      injection h with h
      obtain ⟨hmem, hmax⟩ := argmaxFirst_spec ha
      exact ⟨t, hmem, h.symm, hmax⟩

/-- A three-jet event with one b-tagged jet, for concrete scenarios. -/
def threeJetEvent : List Jet :=
  [sampleJet 40 (9/10), sampleJet 40 (1/10), sampleJet 40 (1/10)]

/-- Witness for C2: a two-jet event yields nothing; on a concrete
three-jet event the observable is the squared mass of its surviving
maximal-pt combination. -/
theorem trijet_mass_calculator_spec_witness :
    mRecoTopEvent [sampleJet 40 1, sampleJet 50 1] = none ∧
    (∃ t, t ∈ survivingCombos threeJetEvent ∧ (729 : ℚ) = (comboP4 t).massSq ∧
      ∀ u ∈ survivingCombos threeJetEvent, (comboP4 u).ptSq ≤ (comboP4 t).ptSq) :=
  ⟨trijet_mass_calculator_spec.2.2.2.1 [sampleJet 40 1, sampleJet 50 1] (by decide),
   trijet_mass_calculator_spec.2.2.2.2.1 threeJetEvent 729 (by
     norm_num [mRecoTopEvent, survivingCombos, triples, pairsList, argmaxFirst,
       comboP4, comboMaxBtag, P4.add, P4.ptSq, P4.massSq, threeJetEvent, sampleJet,
       B_TAG_THRESHOLD, List.filter, List.foldl])⟩

lemma mem_maskSelect {mask : List Bool} {xs : List α} {x : α}
    (h : x ∈ maskSelect mask xs) :
    ∃ i : Nat, mask[i]? = some true ∧ xs[i]? = some x := by
  induction mask generalizing xs with
  | nil => rw [maskSelect, List.zip_nil_left] at h; cases h
  | cons b ms ih =>
    cases xs with
    | nil => rw [maskSelect, List.zip_nil_right] at h; cases h
    | cons y ys =>
      rw [maskSelect, List.zip_cons_cons, List.filterMap_cons] at h
      cases b with
      | false =>
        obtain ⟨i, h1, h2⟩ := ih (show x ∈ maskSelect ms ys from h)
        exact ⟨i + 1, by simpa using h1, by simpa using h2⟩
      | true =>
        rcases List.mem_cons.mp h with h | h
        · exact ⟨0, by simp, by simp [h]⟩
        · obtain ⟨i, h1, h2⟩ := ih (show x ∈ maskSelect ms ys from h)
          exact ⟨i + 1, by simpa using h1, by simpa using h2⟩

lemma getElem?_zipWith_some {f : α → β → γ} {as : List α} {bs : List β} {i : Nat} {c : γ}
    (h : (List.zipWith f as bs)[i]? = some c) :
    ∃ a b, as[i]? = some a ∧ bs[i]? = some b ∧ c = f a b := by
  rw [List.getElem?_zipWith] at h
  cases ha : as[i]? with
  | none => rw [ha] at h; cases h
  | some a =>
    cases hb : bs[i]? with
    | none => rw [ha, hb] at h; cases h
    | some b =>
      rw [ha, hb] at h
      injection h with h
      exact ⟨a, b, rfl, rfl, h.symm⟩

lemma mask4j2b_entry (e : List (List Electron)) (m : List (List Muon))
    (j : List (List Jet)) {i : Nat} {js : List Jet}
    (hm : (regionMaskOf (region_selection e m j) "4j2b")[i]? = some true)
    (hj : j[i]? = some js) : 4 ≤ js.length ∧ 2 ≤ nBtag js := by
  rw [regionMaskOf, psAll_single, lookup_4j2b, Option.getD_some] at hm
  obtain ⟨x, a2, hx, ha2, hand⟩ := getElem?_zipWith_some hm
  obtain ⟨l, a4, _, ha4, hand2⟩ := getElem?_zipWith_some hx
  obtain ⟨hxt, ha2t⟩ := Bool.and_eq_true_iff.mp hand.symm
  subst hxt
  obtain ⟨_, ha4t⟩ := Bool.and_eq_true_iff.mp hand2.symm
  rw [atleast4jMask, List.getElem?_map, hj] at ha4
  rw [atleast2bMask, List.getElem?_map, hj] at ha2
  injection ha4 with ha4
  injection ha2 with ha2
  rw [← ha4] at ha4t
  rw [← ha2] at ha2t
  exact ⟨of_decide_eq_true ha4t, of_decide_eq_true ha2t⟩

lemma tagged_mem_of_nBtag (js : List Jet) (h : 1 ≤ nBtag js) :
    ∃ x ∈ js, B_TAG_THRESHOLD < x.btagCSVV2 := by
  rw [nBtag] at h
  have hne : js.filter (fun j => decide (B_TAG_THRESHOLD < j.btagCSVV2)) ≠ [] := by
    intro he
    rw [he] at h
    cases h
  obtain ⟨x, hx⟩ := List.exists_mem_of_ne_nil _ hne
  have hm := List.mem_filter.mp hx
  exact ⟨x, hm.1, of_decide_eq_true hm.2⟩

lemma exists_three_sublist_containing {xs : List α} {x : α} (hlen : 3 ≤ xs.length)
    (hx : x ∈ xs) : ∃ a b c, [a, b, c].Sublist xs ∧ (x = a ∨ x = b ∨ x = c) := by
  match xs, hlen with
  | y :: b :: c :: rest, _ =>
    have hfull : [y, b, c].Sublist (y :: b :: c :: rest) :=
      List.Sublist.cons₂ y (List.Sublist.cons₂ b
        (List.Sublist.cons₂ c (List.nil_sublist rest)))
    rcases List.mem_cons.mp hx with h | hx1
    · exact ⟨y, b, c, hfull, Or.inl h⟩
    rcases List.mem_cons.mp hx1 with h | hx2
    · exact ⟨y, b, c, hfull, Or.inr (Or.inl h)⟩
    rcases List.mem_cons.mp hx2 with h | hx3
    · exact ⟨y, b, c, hfull, Or.inr (Or.inr h)⟩
    · exact ⟨y, b, x,
        List.Sublist.cons₂ y (List.Sublist.cons₂ b
          (List.Sublist.cons c (List.singleton_sublist.mpr hx3))),
        Or.inr (Or.inr rfl)⟩

lemma surviving_nonempty {js : List Jet} (h3 : 3 ≤ js.length) (h1 : 1 ≤ nBtag js) :
    survivingCombos js ≠ [] := by
  obtain ⟨x, hx, hbt⟩ := tagged_mem_of_nBtag js h1
  obtain ⟨a, b, c, hsub, hor⟩ := exists_three_sublist_containing h3 hx
  have ht : (a, b, c) ∈ triples js := triples_complete hsub
  have hmax : B_TAG_THRESHOLD < comboMaxBtag (a, b, c) := by
    rw [comboMaxBtag]
    rcases hor with rfl | rfl | rfl
    · exact lt_max_iff.mpr (Or.inl hbt)
    · exact lt_max_iff.mpr (Or.inr (lt_max_iff.mpr (Or.inl hbt)))
    · exact lt_max_iff.mpr (Or.inr (lt_max_iff.mpr (Or.inr hbt)))
  exact List.ne_nil_of_mem (List.mem_filter.mpr ⟨ht, decide_eq_true hmax⟩)

lemma filterMap_length_of_isSome {f : α → Option β} :
    ∀ {l : List α}, (∀ x ∈ l, (f x).isSome = true) →
      (l.filterMap f).length = l.length := by
  intro l
  induction l with
  | nil => intro; rfl
  | cons x t ih =>
    intro h
    rw [List.filterMap_cons]
    cases hf : f x with
    | none =>
      have hx := h x (List.mem_cons_self x t)
      rw [hf] at hx
      cases hx
    | some b =>
      rw [List.length_cons, ih (fun y hy => h y (List.mem_cons_of_mem x hy)),
        List.length_cons]

/-- C10: every event selected into the 4j2b region has at least four jets
of which at least two are b-tagged, hence at least one surviving trijet
combination, so the trijet-mass calculator yields exactly one entry per
selected event and the observable passed to the fill has the same length
as the per-event weight array. -/
theorem region4j2b_observable_matches_weights :
    ∀ e m j,
      (∀ js ∈ regionJetsOf (region_selection e m j) j "4j2b",
        4 ≤ js.length ∧ 2 ≤ nBtag js ∧ survivingCombos js ≠ [] ∧
          (mRecoTopEvent js).isSome = true) ∧
      (∀ xw : ℚ,
        (observableOf "4j2b" (regionJetsOf (region_selection e m j) j "4j2b")).length =
          (regionWeightsOf xw (regionJetsOf (region_selection e m j) j "4j2b")).length) := by
  intro e m j
  have hprops : ∀ js ∈ regionJetsOf (region_selection e m j) j "4j2b",
      4 ≤ js.length ∧ 2 ≤ nBtag js ∧ survivingCombos js ≠ [] ∧
        (mRecoTopEvent js).isSome = true := by
    intro js hjs
    rw [regionJetsOf] at hjs
    obtain ⟨i, hm, hj⟩ := mem_maskSelect hjs
    obtain ⟨h4, h2⟩ := mask4j2b_entry e m j hm hj
    have hne : survivingCombos js ≠ [] :=
      surviving_nonempty (le_trans (by norm_num) h4) (le_trans (by norm_num) h2)
    have hsome : (mRecoTopEvent js).isSome = true := by
      cases ho : mRecoTopEvent js with
      | none => exact absurd ((mRecoTopEvent_eq_none_iff js).mp ho) hne
      | some mval => rfl
    exact ⟨h4, h2, hne, hsome⟩
  refine ⟨hprops, ?_⟩
  intro xw
  rw [observableOf, if_neg (by decide), if_pos rfl, regionWeightsOf, List.length_map,
    calculate_m_reco_top, filterMap_length_of_isSome (fun js hjs => (hprops js hjs).2.2.2)]

/-- The four-jet two-b-tag sample event. -/
def sampleJetEvent : List Jet :=
  [sampleJet 40 (9/10), sampleJet 40 (9/10), sampleJet 40 (1/10), sampleJet 40 (1/10)]

/-- Witness for C10 on the sample 4j2b event. -/
theorem region4j2b_observable_matches_weights_witness :
    4 ≤ sampleJetEvent.length ∧ 2 ≤ nBtag sampleJetEvent ∧
    survivingCombos sampleJetEvent ≠ [] ∧ (mRecoTopEvent sampleJetEvent).isSome = true :=
  (region4j2b_observable_matches_weights [[sampleElectron]] [[]] [sampleJetEvent]).1
    sampleJetEvent (by
      rw [regionJetsOf,
        show regionMaskOf (region_selection [[sampleElectron]] [[]] [sampleJetEvent])
            "4j2b" = [true] from by
          rw [regionMaskOf, psAll_single, lookup_4j2b]
          norm_num [exactly1lMask, atleast4jMask, atleast2bMask, nBtag, sampleJetEvent,
            sampleJet, sampleElectron, B_TAG_THRESHOLD, List.filter]]
      simp [maskSelect])

end AGC
